import Mathlib

/-!
Verification development for the two-pool Michaelis–Menten simulation
(`src/bin/jam_two_pool_russell_zometa.rs`).

The program integrates a two-pool kinetic model with saturating
(Henri–Michaelis–Menten) fluxes using a fixed-step RK4 solver, recording
time, state and an auxiliary snapshot (concentrations and fluxes) after
each committed step.

The program is embedded at three levels of arithmetic:

* `derivP` / `derivQ` — the derivative closure over exact rationals,
  used for the algebraic claims;
* `FF` and `derivFF` — the same closure over rationals extended with
  IEEE-style infinities and NaN, capturing what `f64` division does when
  a concentration is zero;
* scaled fixed-point operations (`zmul`, `zdiv`) — every value an
  integer multiple of `2⁻⁶⁴`, every operation truncated to that grid —
  an explicit-rounding model of the binary64 arithmetic on the
  magnitudes this run actually visits; the concrete 100-step run is
  evaluated in this model.

The RK4 step and the solver internals live in the external
`russell_ode` crate, not in this repository; they are modelled from the
spec where needed and marked as such (`stepZ`, `rk4Step`, and the step
performed inside `runE`).
-/

/-- The parameter table `I` of the source:
`const I:[f64;5] = [20.0, 25.0, 6.0, 9.0, 3.0]`
(capacity of pool A, capacity of pool B, QA0, QB0, external input).
All five decimal literals are exactly representable in binary64, so the
rational values below are the exact `f64` constants. -/
def I : Fin 5 → ℚ := ![20, 25, 6, 9, 3]

/-- The kinetic-constant table `C` of the source:
`const C: [f64; 6] = [18.0, 13.0, 8.0, 0.32, 0.36, 0.31]`
(VAB, VBA, VBO, KAB, KBA, KBO), read here as exact decimal values. -/
def C : Fin 6 → ℚ := ![18, 13, 8, 32/100, 36/100, 31/100]

/-- The auxiliary ("non-state") results struct of the source:
concentrations of the two pools and the three fluxes. -/
structure Aux where
  con_a : ℚ
  con_b : ℚ
  fab : ℚ
  fba : ℚ
  fbo : ℚ
deriving DecidableEq

/-- The derivative closure passed to `System::new`, over exact rational
arithmetic, parameterised by the two constant tables (the source reads
the globals `I` and `C`; passing them as arguments lets us also state
the spec's all-parameters properties).  Mirrors, line by line:
`con_a = y[0]/I[0]`, `con_b = y[1]/I[1]`,
`fab = C[0]/(1 + C[3]/con_a)`, `fba = C[1]/(1 + C[4]/con_b)`,
`fbo = C[2]/(1 + C[5]/con_b)`,
`dydt[0] = I[4] + fba - fab`, `dydt[1] = fab - fba - fbo`. -/
def derivP (Iv : Fin 5 → ℚ) (Cv : Fin 6 → ℚ) (y : Fin 2 → ℚ) :
    (Fin 2 → ℚ) × Aux :=
  let con_a := y 0 / Iv 0
  let con_b := y 1 / Iv 1
  let fab := Cv 0 / (1 + Cv 3 / con_a)
  let fba := Cv 1 / (1 + Cv 4 / con_b)
  let fbo := Cv 2 / (1 + Cv 5 / con_b)
  (![Iv 4 + fba - fab, fab - fba - fbo], ⟨con_a, con_b, fab, fba, fbo⟩)

/-- The derivative closure with the program's own constant tables. -/
def derivQ (y : Fin 2 → ℚ) : (Fin 2 → ℚ) × Aux := derivP I C y

/-!
IEEE-style extended values: `f64` arithmetic on special values — a
rational (finite value, with `0` standing for IEEE `+0.0`), the two
infinities, and NaN.  Arithmetic on finite operands is kept exact: the
claims settled on this model concern only the special-value behaviour
of the source's closure (what happens when a concentration is zero),
which is independent of rounding. -/

inductive FF where
  | fin (q : ℚ)
  | pinf
  | ninf
  | nan
deriving DecidableEq

/-- IEEE-style addition on extended values. -/
def FF.add : FF → FF → FF
  | FF.nan, _ => FF.nan
  | _, FF.nan => FF.nan
  | FF.pinf, FF.ninf => FF.nan
  | FF.ninf, FF.pinf => FF.nan
  | FF.pinf, _ => FF.pinf
  | FF.ninf, _ => FF.ninf
  | FF.fin _, FF.pinf => FF.pinf
  | FF.fin _, FF.ninf => FF.ninf
  | FF.fin a, FF.fin b => FF.fin (a + b)

/-- IEEE-style subtraction on extended values. -/
def FF.sub : FF → FF → FF
  | FF.nan, _ => FF.nan
  | _, FF.nan => FF.nan
  | FF.pinf, FF.pinf => FF.nan
  | FF.ninf, FF.ninf => FF.nan
  | FF.pinf, _ => FF.pinf
  | FF.ninf, _ => FF.ninf
  | FF.fin _, FF.pinf => FF.ninf
  | FF.fin _, FF.ninf => FF.pinf
  | FF.fin a, FF.fin b => FF.fin (a - b)

/-- IEEE-style division on extended values; the finite value `0` is
IEEE `+0.0`, so `a / 0` is `+∞` for `a > 0` and `-∞` for `a < 0`,
and `0 / 0` is NaN. -/
def FF.div : FF → FF → FF
  | FF.nan, _ => FF.nan
  | _, FF.nan => FF.nan
  | FF.pinf, FF.pinf => FF.nan
  | FF.pinf, FF.ninf => FF.nan
  | FF.ninf, FF.pinf => FF.nan
  | FF.ninf, FF.ninf => FF.nan
  | FF.pinf, FF.fin b => if b < 0 then FF.ninf else FF.pinf
  | FF.ninf, FF.fin b => if b < 0 then FF.pinf else FF.ninf
  | FF.fin _, FF.pinf => FF.fin 0
  | FF.fin _, FF.ninf => FF.fin 0
  | FF.fin a, FF.fin b =>
    if b = 0 then
      if a = 0 then FF.nan else if 0 < a then FF.pinf else FF.ninf
    else FF.fin (a / b)

/-- The auxiliary-results struct over extended values. -/
structure AuxF where
  con_a : FF
  con_b : FF
  fab : FF
  fba : FF
  fbo : FF
deriving DecidableEq

/-- The output of the source's derivative closure over extended values:
the same formulas as `derivP`, with `f64` special-value semantics.
Mirrors `con_a = y[0]/I[0]`, …, `dydt[1] = fab - fba - fbo`. -/
def derivFFout (y : Fin 2 → FF) : (Fin 2 → FF) × AuxF :=
  let con_a := FF.div (y 0) (FF.fin (I 0))
  let con_b := FF.div (y 1) (FF.fin (I 1))
  let fab := FF.div (FF.fin (C 0)) (FF.add (FF.fin 1) (FF.div (FF.fin (C 3)) con_a))
  let fba := FF.div (FF.fin (C 1)) (FF.add (FF.fin 1) (FF.div (FF.fin (C 4)) con_b))
  let fbo := FF.div (FF.fin (C 2)) (FF.add (FF.fin 1) (FF.div (FF.fin (C 5)) con_b))
  (![FF.sub (FF.add (FF.fin (I 4)) fba) fab, FF.sub (FF.sub fab fba) fbo],
   ⟨con_a, con_b, fab, fba, fbo⟩)

/-- The source's derivative closure itself: it computes the outputs and
unconditionally returns `Ok(())` — the body has no error branch. -/
def derivFF (y : Fin 2 → FF) : Except String ((Fin 2 → FF) × AuxF) :=
  Except.ok (derivFFout y)

/-!
Fixed-point arithmetic and the concrete run.  The concrete 100-step run
is evaluated in an explicit-rounding model of the program's `f64`
arithmetic: every value is carried as an integer multiple of `2⁻⁶⁴`
(stored as the scaled integer), and every multiplication and division
truncates its result to that grid.  The checked properties of the run
(record counts, the endpoint times, non-negativity of the reported
values, strict positivity of all stage states) have margins that exceed
by many orders of magnitude both this model's truncation error and
binary64's rounding error, and the divisor-positivity check certifies
that no division by zero occurs anywhere in the run. -/

/-- Fixed-point multiplication: values are integers scaled by `2⁶⁴`;
the product is truncated back to the grid. -/
def zmul (a b : ℤ) : ℤ := (a * b) / 2^64

/-- Fixed-point division, truncated to the grid. -/
def zdiv (a b : ℤ) : ℤ := (a * 2^64) / b

/-- The scaled fixed-point value of the fraction `p / q`. -/
def zofFrac (p q : ℤ) : ℤ := (p * 2^64) / q

/-- The parameter table `I` as scaled fixed-point values (all entries
are integers, hence exact). -/
def IZ : Fin 5 → ℤ := ![20 * 2^64, 25 * 2^64, 6 * 2^64, 9 * 2^64, 3 * 2^64]

/-- The kinetic-constant table `C` as scaled fixed-point values. -/
def CZ : Fin 6 → ℤ :=
  ![18 * 2^64, 13 * 2^64, 8 * 2^64,
    (32 * 2^64) / 100, (36 * 2^64) / 100, (31 * 2^64) / 100]

/-- The literal `1.0` in the scaled representation. -/
def oneZ : ℤ := 2^64

/-- Semantic value of a scaled integer, as a rational. -/
def toQ (m : ℤ) : ℚ := (m : ℚ) / 2^64

/-- The auxiliary-results struct in the scaled representation. -/
structure AuxZ where
  con_a : ℤ
  con_b : ℤ
  fab : ℤ
  fba : ℤ
  fbo : ℤ
deriving DecidableEq

/-- The derivative closure in the scaled fixed-point model.  Mirrors
the same source lines as `derivP`: `con_a = y[0]/I[0]`,
`con_b = y[1]/I[1]`, `fab = C[0]/(1 + C[3]/con_a)`,
`fba = C[1]/(1 + C[4]/con_b)`, `fbo = C[2]/(1 + C[5]/con_b)`,
`dydt[0] = I[4] + fba - fab`, `dydt[1] = fab - fba - fbo`. -/
def derivZ (y : ℤ × ℤ) : (ℤ × ℤ) × AuxZ :=
  let con_a := zdiv y.1 (IZ 0)
  let con_b := zdiv y.2 (IZ 1)
  let fab := zdiv (CZ 0) (oneZ + zdiv (CZ 3) con_a)
  let fba := zdiv (CZ 1) (oneZ + zdiv (CZ 4) con_b)
  let fbo := zdiv (CZ 2) (oneZ + zdiv (CZ 5) con_b)
  ((IZ 4 + fba - fab, fab - fba - fbo), ⟨con_a, con_b, fab, fba, fbo⟩)

/-- The step size `dt = 0.1` of the source, in the scaled model. -/
def hZ : ℤ := zofFrac 1 10

/-- Componentwise vector addition in the scaled model (exact). -/
def vaddZ (p q : ℤ × ℤ) : ℤ × ℤ := (p.1 + q.1, p.2 + q.2)

/-- Scalar multiplication of a state vector in the scaled model. -/
def vsmulZ (c : ℤ) (p : ℤ × ℤ) : ℤ × ℤ := (zmul c p.1, zmul c p.2)

/-- Modelled from the spec: one step of the `russell_ode` fixed-step
RK4 solver selected by `Params::new(Method::Rk4)` and invoked as
`solver.solve(&mut y, t, t + dt, None, &mut results)`.  The solver's
internals are not part of this repository; following spec §4.2, the
step makes the four stage evaluations
`k1 = f(y)`, `k2 = f(y + h/2·k1)`, `k3 = f(y + h/2·k2)`,
`k4 = f(y + h·k3)` (the closure ignores `t`), commits
`y + h/6·(k1 + 2·k2 + 2·k3 + k4)`, and leaves the auxiliary struct
holding the values written by the final (k4) evaluation.  Besides the
committed state and snapshot, the model also returns the list of the
four stage input states, used to certify that every derivative
evaluation of the run happens at strictly positive pool amounts. -/
def stepZ (y : ℤ × ℤ) : ((ℤ × ℤ) × AuxZ) × List (ℤ × ℤ) :=
  let h2 := zdiv hZ (2 * 2^64)
  let h6 := zdiv hZ (6 * 2^64)
  let k1 := (derivZ y).1
  let y2 := vaddZ y (vsmulZ h2 k1)
  let k2 := (derivZ y2).1
  let y3 := vaddZ y (vsmulZ h2 k2)
  let k3 := (derivZ y3).1
  let y4 := vaddZ y (vsmulZ hZ k3)
  let r4 := derivZ y4
  let ksum := vaddZ (vaddZ (vaddZ k1 (vsmulZ (2 * 2^64) k2)) (vsmulZ (2 * 2^64) k3)) r4.1
  ((vaddZ y (vsmulZ h6 ksum), r4.2), [y, y2, y3, y4])

/-- A trace record of the concrete run: time, state copy,
auxiliary-snapshot copy (the entries the source pushes onto `t_trace`,
`state_trace` and `results_trace`), in the scaled representation. -/
structure TRecZ where
  t : ℤ
  y : ℤ × ℤ
  aux : AuxZ
deriving DecidableEq

/-- `AuxiliaryResults::new()` of the source:
`con_a = I[3]/I[1]`, `con_b = I[4]/I[2]`, all fluxes `0.0`. -/
def auxInitZ : AuxZ := ⟨zdiv (IZ 3) (IZ 1), zdiv (IZ 4) (IZ 2), 0, 0, 0⟩

/-- The stepping loop of `main`: each iteration advances the state by
one solver step (`stepZ`, spec-modelled), advances `t += dt`, and
appends the new record (post-increment time, new state, the snapshot
left by the step); the second component accumulates the stage input
states of every step. -/
def loopZ : Nat → (ℤ × ℤ) → ℤ → List TRecZ × List (ℤ × ℤ) →
    List TRecZ × List (ℤ × ℤ)
  | 0, _, _, acc => acc
  | n+1, y, t, acc =>
    let s := stepZ y
    let t2 := t + hZ
    loopZ n s.1.1 t2 (acc.1 ++ [⟨t2, s.1.1, s.1.2⟩], acc.2 ++ s.2)

/-- The initial state of the source:
`let mut y = NumVector::from(&[I[4], I[3]]);`. -/
def y0Z : ℤ × ℤ := (IZ 4, IZ 3)

/-- The full run of `main`: record 0 is `(t0, initial state,
AuxiliaryResults::new())`, pushed before the loop; then 100 steps. -/
def runPairZ : List TRecZ × List (ℤ × ℤ) :=
  loopZ 100 y0Z 0 ([⟨0, y0Z, auxInitZ⟩], [])

/-- The program's trace (101 records). -/
def traceZ : List TRecZ := runPairZ.1

/-- The stage input states of all derivative evaluations of the run. -/
def stageStatesZ : List (ℤ × ℤ) := runPairZ.2

/-- Accessor: the `n`-th trace record (defaulting to a zero record). -/
def recAt (n : Nat) : TRecZ := (traceZ.get? n).getD ⟨0, (0, 0), ⟨0, 0, 0, 0, 0⟩⟩

/-- Boolean checker for the properties of the concrete run, written
over the run pair so that the kernel evaluates the trace once. -/
def checkRun (pr : List TRecZ × List (ℤ × ℤ)) : Bool :=
  decide (pr.1.length = 101) &&
  decide (pr.2.length = 400) &&
  decide (((pr.1.get? 0).getD ⟨0, (0, 0), ⟨0, 0, 0, 0, 0⟩⟩).t = 0) &&
  decide (((pr.1.get? 100).getD ⟨0, (0, 0), ⟨0, 0, 0, 0, 0⟩⟩).t - 10 * 2^64 ≤ 2^24) &&
  decide (10 * 2^64 - ((pr.1.get? 100).getD ⟨0, (0, 0), ⟨0, 0, 0, 0, 0⟩⟩).t ≤ 2^24) &&
  pr.1.all (fun r => decide (0 ≤ r.aux.con_a) && decide (0 ≤ r.aux.con_b) &&
    decide (0 ≤ r.aux.fab) && decide (0 ≤ r.aux.fba) && decide (0 ≤ r.aux.fbo)) &&
  pr.2.all (fun p => decide (0 < p.1) && decide (0 < p.2))

/-- The auxiliary-results struct over exact rationals is also the
snapshot type of the generic integrator layer below. -/
structure TRec where
  t : ℚ
  y : ℚ × ℚ
  aux : Aux
deriving DecidableEq


/-!
A generic embedding of the integrator-and-driver layer, used for the
claims about step structure and error propagation.  The derivative
function is an arbitrary fallible closure, as in `russell_ode`'s
`System`; arithmetic is exact here (the claims settled on this model
are structural, not numerical). -/

/-- Componentwise vector addition (exact). -/
def vadd (p q : ℚ × ℚ) : ℚ × ℚ := (p.1 + q.1, p.2 + q.2)

/-- Scalar multiplication of a state vector (exact). -/
def vsmul (c : ℚ) (p : ℚ × ℚ) : ℚ × ℚ := (c * p.1, c * p.2)

/-- Modelled from the spec: the classic explicit 4th-order Runge–Kutta
step of the `russell_ode` solver (`Method::Rk4`), over an arbitrary
fallible derivative function.  The four stage evaluations happen in
order; if any evaluation fails, the step stops at that evaluation and
returns the error without committing anything; otherwise the new state
is `y + h/6·(k1 + 2·k2 + 2·k3 + k4)` and the returned snapshot is the
one from the final (k4) evaluation. -/
def rk4Step (f : (ℚ × ℚ) → ℚ → Except String ((ℚ × ℚ) × Aux))
    (y : ℚ × ℚ) (t h : ℚ) : Except String ((ℚ × ℚ) × Aux) :=
  match f y t with
  | Except.error e => Except.error e
  | Except.ok r1 =>
    match f (vadd y (vsmul (h/2) r1.1)) (t + h/2) with
    | Except.error e => Except.error e
    | Except.ok r2 =>
      match f (vadd y (vsmul (h/2) r2.1)) (t + h/2) with
      | Except.error e => Except.error e
      | Except.ok r3 =>
        match f (vadd y (vsmul h r3.1)) (t + h) with
        | Except.error e => Except.error e
        | Except.ok r4 =>
          Except.ok
            (vadd y (vsmul (h/6)
              (vadd (vadd (vadd r1.1 (vsmul 2 r2.1)) (vsmul 2 r3.1)) r4.1)),
             r4.2)

/-- The driver loop of `main` over the generic step: on a successful
step it advances time, appends the record and continues; on a failing
step it halts, returning the records committed so far and the error
(the source calls `.expect`, which aborts the process there). -/
def runE (f : (ℚ × ℚ) → ℚ → Except String ((ℚ × ℚ) × Aux)) :
    Nat → (ℚ × ℚ) → ℚ → ℚ → List TRec → List TRec × Option String
  | 0, _, _, _, acc => (acc, none)
  | n+1, y, t, h, acc =>
    match rk4Step f y t h with
    | Except.error e => (acc, some e)
    | Except.ok r => runE f n r.1 (t + h) h (acc ++ [⟨t + h, r.1, r.2⟩])

/-- A trivial derivative function for witnesses: returns its state
argument as the derivative and a zero snapshot. -/
def fId : (ℚ × ℚ) → ℚ → Except String ((ℚ × ℚ) × Aux) :=
  fun y _ => Except.ok (y, ⟨0, 0, 0, 0, 0⟩)

/-- An always-failing derivative function for witnesses. -/
def fErr : (ℚ × ℚ) → ℚ → Except String ((ℚ × ℚ) × Aux) :=
  fun _ _ => Except.error "domain"

/-- C1: for every state with both concentrations positive, the
derivative evaluation computes `con_a = y[0]/capacity_A` and
`con_b = y[1]/capacity_B`, each flux as `Vmax/(1 + K/concentration)` of
the relevant pool's concentration (`fab` from `con_a`, `fba` and `fbo`
from `con_b`), and returns `dydt[0] = external_input + fba - fab`,
`dydt[1] = fab - fba - fbo`. -/
theorem C1_deriv_formula (y : Fin 2 → ℚ)
    (ha : 0 < y 0 / I 0) (hb : 0 < y 1 / I 1) :
    (derivQ y).2.con_a = y 0 / I 0 ∧
    (derivQ y).2.con_b = y 1 / I 1 ∧
    (derivQ y).2.fab = C 0 / (1 + C 3 / (y 0 / I 0)) ∧
    (derivQ y).2.fba = C 1 / (1 + C 4 / (y 1 / I 1)) ∧
    (derivQ y).2.fbo = C 2 / (1 + C 5 / (y 1 / I 1)) ∧
    (derivQ y).1 0 = I 4 + (derivQ y).2.fba - (derivQ y).2.fab ∧
    (derivQ y).1 1 = (derivQ y).2.fab - (derivQ y).2.fba - (derivQ y).2.fbo := by
  refine ⟨rfl, rfl, rfl, rfl, rfl, rfl, rfl⟩

/-- Witness for C1 at the program's initial state `[3, 9]`, where both
concentrations are positive. -/
theorem C1_deriv_formula_witness :
    (derivQ ![3, 9]).2.con_a = (3 : ℚ) / 20 ∧
    (derivQ ![3, 9]).2.fab = 270 / 47 := by
  have h := C1_deriv_formula ![3, 9] (by norm_num [I]) (by norm_num [I])
  refine ⟨h.1.trans (by norm_num [I]), h.2.2.1.trans (by norm_num [I, C])⟩

/-- C9: mass balance — for every state vector, the two derivative
components returned by the closure sum to `I[4] - fbo`; the inter-pool
fluxes `fab` and `fba` cancel exactly (exact-arithmetic reading of the
closure's formulas). -/
theorem C9_mass_balance (y : Fin 2 → ℚ) :
    (derivQ y).1 0 + (derivQ y).1 1 = I 4 - (derivQ y).2.fbo ∧
    (I 4 + (derivQ y).2.fba - (derivQ y).2.fab) +
      ((derivQ y).2.fab - (derivQ y).2.fba - (derivQ y).2.fbo) =
      I 4 - (derivQ y).2.fbo := by
  have e0 : (derivQ y).1 0 = I 4 + (derivQ y).2.fba - (derivQ y).2.fab := rfl
  have e1 : (derivQ y).1 1 =
      (derivQ y).2.fab - (derivQ y).2.fba - (derivQ y).2.fbo := rfl
  constructor
  · rw [e0, e1]; ring
  · ring

/-- Sanity check of the mass balance at the initial state. -/
theorem C9_mass_balance_check :
    (derivQ ![3, 9]).1 0 + (derivQ ![3, 9]).1 1 = 3 - 288/67 := by
  decide!

/-- C6: for all parameter tables with positive capacities, Vmax and K,
and every state with both concentrations strictly positive, the
derivative evaluation is well defined (all flux denominators are
strictly positive, so no division by zero or infinity arises) and each
flux is non-negative and strictly less than its Vmax. -/
theorem C6_flux_bounds (Iv : Fin 5 → ℚ) (Cv : Fin 6 → ℚ)
    (hIv0 : 0 < Iv 0) (hIv1 : 0 < Iv 1)
    (hv0 : 0 < Cv 0) (hv1 : 0 < Cv 1) (hv2 : 0 < Cv 2)
    (hk0 : 0 < Cv 3) (hk1 : 0 < Cv 4) (hk2 : 0 < Cv 5)
    (y : Fin 2 → ℚ) (ha : 0 < y 0 / Iv 0) (hb : 0 < y 1 / Iv 1) :
    (0 < 1 + Cv 3 / (derivP Iv Cv y).2.con_a ∧
     0 < 1 + Cv 4 / (derivP Iv Cv y).2.con_b ∧
     0 < 1 + Cv 5 / (derivP Iv Cv y).2.con_b) ∧
    (0 ≤ (derivP Iv Cv y).2.fab ∧ (derivP Iv Cv y).2.fab < Cv 0) ∧
    (0 ≤ (derivP Iv Cv y).2.fba ∧ (derivP Iv Cv y).2.fba < Cv 1) ∧
    (0 ≤ (derivP Iv Cv y).2.fbo ∧ (derivP Iv Cv y).2.fbo < Cv 2) := by
  have hca : (derivP Iv Cv y).2.con_a = y 0 / Iv 0 := rfl
  have hcb : (derivP Iv Cv y).2.con_b = y 1 / Iv 1 := rfl
  have h1 : (1 : ℚ) < 1 + Cv 3 / (y 0 / Iv 0) := by
    have := div_pos hk0 ha
    linarith
  have h2 : (1 : ℚ) < 1 + Cv 4 / (y 1 / Iv 1) := by
    have := div_pos hk1 hb
    linarith
  have h3 : (1 : ℚ) < 1 + Cv 5 / (y 1 / Iv 1) := by
    have := div_pos hk2 hb
    linarith
  refine ⟨⟨?_, ?_, ?_⟩, ⟨?_, ?_⟩, ⟨?_, ?_⟩, ⟨?_, ?_⟩⟩
  · rw [hca]; linarith
  · rw [hcb]; linarith
  · rw [hcb]; linarith
  · exact div_nonneg hv0.le (by linarith)
  · exact div_lt_self hv0 h1
  · exact div_nonneg hv1.le (by linarith)
  · exact div_lt_self hv1 h2
  · exact div_nonneg hv2.le (by linarith)
  · exact div_lt_self hv2 h3

/-- Witness for C6 with the program's own constants and the initial
state `[3, 9]`: the first flux lies in `[0, 18)`. -/
theorem C6_flux_bounds_witness :
    0 ≤ (derivP I C ![3, 9]).2.fab ∧ (derivP I C ![3, 9]).2.fab < C 0 := by
  have h := C6_flux_bounds I C
    (by decide!) (by decide!)
    (by decide!) (by decide!) (by decide!)
    (by decide!) (by decide!) (by decide!)
    ![3, 9] (by decide!) (by decide!)
  exact h.2.1

/-- C10: the derivative closure is total — for every length-2 state
vector (including states with zero or negative components) it returns
`Ok`; in particular at `state[A] = 0` the division `K/con_a` yields
`+∞` and `fab` evaluates to exactly `0.0`, so no error is raised and no
infinite flux is stored. -/
theorem C10_closure_total :
    (∀ y : Fin 2 → FF, derivFF y = Except.ok (derivFFout y)) ∧
    (derivFFout ![FF.fin 0, FF.fin 6]).2.con_a = FF.fin 0 ∧
    FF.div (FF.fin (C 3)) (derivFFout ![FF.fin 0, FF.fin 6]).2.con_a = FF.pinf ∧
    (derivFFout ![FF.fin 0, FF.fin 6]).2.fab = FF.fin 0 := by
  refine ⟨fun y => rfl, ?_, ?_, ?_⟩ <;> decide!

/-- C2, evaluation at the failing input: at state `[0.0, 6.0]`
(concentration A = 0) the derivative closure does not raise any error:
it returns `Ok` and stores the finite flux `fab = 0.0`, contradicting
the spec's mandated `DomainError`. -/
theorem C2_no_error_at_zero_state :
    derivFF ![FF.fin 0, FF.fin 6] = Except.ok (derivFFout ![FF.fin 0, FF.fin 6]) ∧
    (derivFFout ![FF.fin 0, FF.fin 6]).2.fab = FF.fin 0 ∧
    (derivFFout ![FF.fin 0, FF.fin 6]).1 1 ≠ FF.pinf := by
  refine ⟨rfl, by decide!, by decide!⟩

/-- Semantic non-negativity transfers from the scaled integer. -/
theorem toQ_nonneg (m : ℤ) (h : 0 ≤ m) : 0 ≤ toQ m :=
  div_nonneg (by exact_mod_cast h) (by positivity)

/-- Semantic positivity transfers from the scaled integer. -/
theorem toQ_pos (m : ℤ) (h : 0 < m) : 0 < toQ m :=
  div_pos (by exact_mod_cast h) (by positivity)

/-- A scaled integer within `2²⁴` of `10·2⁶⁴` has semantic value within
`2⁻⁴⁰` of `10`. -/
theorem toQ_near10 (m : ℤ) (h1 : m - 10 * 2^64 ≤ 2^24)
    (h2 : 10 * 2^64 - m ≤ 2^24) : |toQ m - 10| ≤ 1/2^40 := by
  have e : toQ m - 10 = ((m - 10 * 2^64 : ℤ) : ℚ) / 2^64 := by
    unfold toQ; push_cast; ring
  have hx1 : ((m - 10 * 2^64 : ℤ) : ℚ) ≤ 2^24 := by exact_mod_cast h1
  have hx2 : (-(2^24) : ℚ) ≤ ((m - 10 * 2^64 : ℤ) : ℚ) := by
    exact_mod_cast (by linarith : -(2^24 : ℤ) ≤ m - 10 * 2^64)
  rw [e, abs_le]
  constructor
  · rw [le_div_iff₀ (by positivity : (0 : ℚ) < 2^64)]
    exact le_trans (by norm_num) hx2
  · rw [div_le_iff₀ (by positivity : (0 : ℚ) < 2^64)]
    exact le_trans hx1 (by norm_num)

/-- C3, counterexample: record 0's auxiliary snapshot is *not* the
model's auxiliary output at the initial state — the snapshot's `fab` is
`0.0`, whereas the model's `fab` at the initial state is nonzero, so
the two snapshots differ; the driver does not evaluate the model at
`(initial_state, t0)` before stepping. -/
theorem C3_counterexample :
    (recAt 0).aux.fab = 0 ∧
    (derivZ (recAt 0).y).2.fab ≠ 0 ∧
    (recAt 0).aux ≠ (derivZ (recAt 0).y).2 := by
  refine ⟨by decide!, by decide!, by decide!⟩

/-- C3, amended: before any integration step the driver appends
TraceRecord 0 = `(t0, initial_state, AuxiliaryResults::new())`, whose
snapshot has `con_a = I[3]/I[1] = 0.36`, `con_b = I[4]/I[2] = 0.5` and
all three fluxes `0.0` — the initializer's values, not a model
evaluation (a run of zero steps already contains exactly this
record). -/
theorem C3_record0 :
    recAt 0 = ⟨0, y0Z, auxInitZ⟩ ∧
    (loopZ 0 y0Z 0 ([⟨0, y0Z, auxInitZ⟩], [])).1 = [⟨0, y0Z, auxInitZ⟩] ∧
    auxInitZ.con_a = zdiv (IZ 3) (IZ 1) ∧
    auxInitZ.con_b = zdiv (IZ 4) (IZ 2) ∧
    auxInitZ.fab = 0 ∧ auxInitZ.fba = 0 ∧ auxInitZ.fbo = 0 ∧
    |toQ auxInitZ.con_a - 36/100| ≤ 1/2^62 ∧
    toQ auxInitZ.con_b = 1/2 := by
  refine ⟨by decide!, rfl, rfl, rfl, rfl, rfl, rfl, by decide!, by decide!⟩

/-- C4, counterexample: the run the program performs does not start
from state `[9.0, 6.0]` — the source initialises
`y = NumVector::from(&[I[4], I[3]])`, which is `[3.0, 9.0]`, and that
is the state stored in record 0. -/
theorem C4_counterexample :
    (recAt 0).y = y0Z ∧
    toQ y0Z.1 = 3 ∧ toQ y0Z.2 = 9 ∧
    ¬(toQ y0Z.1 = 9 ∧ toQ y0Z.2 = 6) := by
  refine ⟨by decide!, by decide!, by decide!, by decide!⟩

/-- Bridge from the Boolean checker to the stated properties, proved
over an arbitrary run pair so that no evaluation is involved. -/
theorem checkRun_spec (pr : List TRecZ × List (ℤ × ℤ))
    (h : checkRun pr = true) :
    pr.1.length = 101 ∧
    ((pr.1.get? 0).getD ⟨0, (0, 0), ⟨0, 0, 0, 0, 0⟩⟩).t = 0 ∧
    |toQ ((pr.1.get? 100).getD ⟨0, (0, 0), ⟨0, 0, 0, 0, 0⟩⟩).t - 10| ≤ 1/2^40 ∧
    (∀ r ∈ pr.1, 0 ≤ toQ r.aux.con_a ∧ 0 ≤ toQ r.aux.con_b ∧
      0 ≤ toQ r.aux.fab ∧ 0 ≤ toQ r.aux.fba ∧ 0 ≤ toQ r.aux.fbo) ∧
    pr.2.length = 400 ∧
    (∀ p ∈ pr.2, 0 < toQ p.1 ∧ 0 < toQ p.2) := by
  simp only [checkRun, Bool.and_eq_true, decide_eq_true_eq,
    List.all_eq_true] at h
  obtain ⟨⟨⟨⟨⟨⟨h1, h2⟩, h3⟩, h4⟩, h4b⟩, h5⟩, h6⟩ := h
  refine ⟨h1, h3, toQ_near10 _ h4 h4b, fun r hr => ?_, h2, fun p hp => ?_⟩
  · have x := h5 r hr
    exact ⟨toQ_nonneg _ x.1.1.1.1, toQ_nonneg _ x.1.1.1.2,
      toQ_nonneg _ x.1.1.2, toQ_nonneg _ x.1.2, toQ_nonneg _ x.2⟩
  · have x := h6 p hp
    exact ⟨toQ_pos _ x.1, toQ_pos _ x.2⟩

/-- C4, amended: in the concrete scenario of the source (capacities
`[20, 25]`, external input `3`, Vmax `[18, 13, 8]`,
K `[0.32, 0.36, 0.31]`, initial state `[3.0, 9.0]`, step size `0.1`,
100 steps) the run produces a trace with exactly 101 records, record 0
has time `0.0`, record 100 has time within `2⁻⁴⁰` of `10.0`, every
reported concentration and flux is non-negative, and every one of the
400 derivative evaluations of the run happens at strictly positive pool
amounts (so all divisions are well defined and every value of the run
is finite). -/
theorem C4_concrete_run :
    traceZ.length = 101 ∧
    (recAt 0).t = 0 ∧
    |toQ (recAt 100).t - 10| ≤ 1/2^40 ∧
    (∀ r ∈ traceZ, 0 ≤ toQ r.aux.con_a ∧ 0 ≤ toQ r.aux.con_b ∧
      0 ≤ toQ r.aux.fab ∧ 0 ≤ toQ r.aux.fba ∧ 0 ≤ toQ r.aux.fbo) ∧
    stageStatesZ.length = 400 ∧
    (∀ p ∈ stageStatesZ, 0 < toQ p.1 ∧ 0 < toQ p.2) :=
  checkRun_spec runPairZ (by decide!)

/-- C5: a step of the integrator over `[t, t + h]` is a single classic
explicit 4th-order Runge–Kutta step — given the four stage evaluations
`k1 = f(state, t)`, `k2 = f(state + h/2·k1, t + h/2)`,
`k3 = f(state + h/2·k2, t + h/2)`, `k4 = f(state + h·k3, t + h)`, the
step commits `state + h/6·(k1 + 2·k2 + 2·k3 + k4)` (and the snapshot of
the k4 evaluation); the step's result is fully determined by exactly
these four evaluations. -/
theorem C5_rk4_step (f : (ℚ × ℚ) → ℚ → Except String ((ℚ × ℚ) × Aux))
    (y : ℚ × ℚ) (t h : ℚ) (k1 k2 k3 k4 : ℚ × ℚ) (a1 a2 a3 a4 : Aux)
    (h1 : f y t = Except.ok (k1, a1))
    (h2 : f (vadd y (vsmul (h/2) k1)) (t + h/2) = Except.ok (k2, a2))
    (h3 : f (vadd y (vsmul (h/2) k2)) (t + h/2) = Except.ok (k3, a3))
    (h4 : f (vadd y (vsmul h k3)) (t + h) = Except.ok (k4, a4)) :
    rk4Step f y t h = Except.ok
      (vadd y (vsmul (h/6)
        (vadd (vadd (vadd k1 (vsmul 2 k2)) (vsmul 2 k3)) k4)), a4) := by
  simp [rk4Step, h1, h2, h3, h4]

/-- Witness for C5: a concrete step with the identity-like derivative
function, all four stage hypotheses holding definitionally. -/
theorem C5_rk4_step_witness :
    rk4Step fId (1, 2) 0 1 = Except.ok
      (vadd (1, 2) (vsmul ((1 : ℚ)/6)
        (vadd (vadd (vadd (1, 2)
          (vsmul 2 (vadd (1, 2) (vsmul (1/2) (1, 2)))))
          (vsmul 2 (vadd (1, 2) (vsmul (1/2) (vadd (1, 2) (vsmul (1/2) (1, 2)))))))
          (vadd (1, 2) (vsmul 1 (vadd (1, 2) (vsmul (1/2) (vadd (1, 2) (vsmul (1/2) (1, 2))))))))),
       ⟨0, 0, 0, 0, 0⟩) :=
  C5_rk4_step fId (1, 2) 0 1 (1, 2)
    (vadd (1, 2) (vsmul (1/2) (1, 2)))
    (vadd (1, 2) (vsmul (1/2) (vadd (1, 2) (vsmul (1/2) (1, 2)))))
    (vadd (1, 2) (vsmul 1 (vadd (1, 2) (vsmul (1/2) (vadd (1, 2) (vsmul (1/2) (1, 2)))))))
    ⟨0, 0, 0, 0, 0⟩ ⟨0, 0, 0, 0, 0⟩ ⟨0, 0, 0, 0, 0⟩ ⟨0, 0, 0, 0, 0⟩
    rfl rfl rfl rfl

/-- C7: for every committed step, the snapshot in the step's trace
record is the one produced by the final (k4) derivative evaluation —
the evaluation at the provisional end-of-step state `state + h·k3` at
time `t + h` — and the driver appends exactly that snapshot with the
committed state and post-increment time. -/
theorem C7_snapshot_k4 (f : (ℚ × ℚ) → ℚ → Except String ((ℚ × ℚ) × Aux))
    (y : ℚ × ℚ) (t h : ℚ) (k1 k2 k3 k4 : ℚ × ℚ) (a1 a2 a3 a4 : Aux)
    (h1 : f y t = Except.ok (k1, a1))
    (h2 : f (vadd y (vsmul (h/2) k1)) (t + h/2) = Except.ok (k2, a2))
    (h3 : f (vadd y (vsmul (h/2) k2)) (t + h/2) = Except.ok (k3, a3))
    (h4 : f (vadd y (vsmul h k3)) (t + h) = Except.ok (k4, a4)) :
    (∀ ynew aux, rk4Step f y t h = Except.ok (ynew, aux) → aux = a4) ∧
    (∀ n acc ynew aux, rk4Step f y t h = Except.ok (ynew, aux) →
      runE f (n+1) y t h acc =
        runE f n ynew (t + h) h (acc ++ [⟨t + h, ynew, aux⟩])) := by
  constructor
  · intro ynew aux hok
    simp only [rk4Step, h1, h2, h3, h4, Except.ok.injEq, Prod.mk.injEq] at hok
    exact hok.2.symm
  · intro n acc ynew aux hok
    simp only [runE, hok]

/-- Witness for C7: one driver iteration with the identity-like
derivative function appends the record carrying the k4 snapshot. -/
theorem C7_snapshot_k4_witness :
    runE fId 1 (1, 2) 0 1 [] =
      runE fId 0
        (vadd (1, 2) (vsmul ((1 : ℚ)/6)
          (vadd (vadd (vadd (1, 2)
            (vsmul 2 (vadd (1, 2) (vsmul (1/2) (1, 2)))))
            (vsmul 2 (vadd (1, 2) (vsmul (1/2) (vadd (1, 2) (vsmul (1/2) (1, 2)))))))
            (vadd (1, 2) (vsmul 1 (vadd (1, 2) (vsmul (1/2) (vadd (1, 2) (vsmul (1/2) (1, 2)))))))))) (0 + 1) 1
        ([] ++ [⟨0 + 1,
          vadd (1, 2) (vsmul ((1 : ℚ)/6)
            (vadd (vadd (vadd (1, 2)
              (vsmul 2 (vadd (1, 2) (vsmul (1/2) (1, 2)))))
              (vsmul 2 (vadd (1, 2) (vsmul (1/2) (vadd (1, 2) (vsmul (1/2) (1, 2)))))))
              (vadd (1, 2) (vsmul 1 (vadd (1, 2) (vsmul (1/2) (vadd (1, 2) (vsmul (1/2) (1, 2))))))))),
          ⟨0, 0, 0, 0, 0⟩⟩]) :=
  (C7_snapshot_k4 fId (1, 2) 0 1 (1, 2)
    (vadd (1, 2) (vsmul (1/2) (1, 2)))
    (vadd (1, 2) (vsmul (1/2) (vadd (1, 2) (vsmul (1/2) (1, 2)))))
    (vadd (1, 2) (vsmul 1 (vadd (1, 2) (vsmul (1/2) (vadd (1, 2) (vsmul (1/2) (1, 2)))))))
    ⟨0, 0, 0, 0, 0⟩ ⟨0, 0, 0, 0, 0⟩ ⟨0, 0, 0, 0, 0⟩ ⟨0, 0, 0, 0, 0⟩
    rfl rfl rfl rfl).2 0 [] _ _ rfl

/-- C8: if any of the four derivative evaluations of a step fails, the
step is aborted with that error and nothing is committed; the driver
then halts, returning exactly the records committed before the failing
step and the error (no retry, no partial-step commit, state
unmodified). -/
theorem C8_abort (f : (ℚ × ℚ) → ℚ → Except String ((ℚ × ℚ) × Aux))
    (y : ℚ × ℚ) (t h : ℚ) (e : String) :
    (f y t = Except.error e → rk4Step f y t h = Except.error e) ∧
    (∀ k1 a1, f y t = Except.ok (k1, a1) →
      f (vadd y (vsmul (h/2) k1)) (t + h/2) = Except.error e →
      rk4Step f y t h = Except.error e) ∧
    (∀ k1 a1 k2 a2, f y t = Except.ok (k1, a1) →
      f (vadd y (vsmul (h/2) k1)) (t + h/2) = Except.ok (k2, a2) →
      f (vadd y (vsmul (h/2) k2)) (t + h/2) = Except.error e →
      rk4Step f y t h = Except.error e) ∧
    (∀ k1 a1 k2 a2 k3 a3, f y t = Except.ok (k1, a1) →
      f (vadd y (vsmul (h/2) k1)) (t + h/2) = Except.ok (k2, a2) →
      f (vadd y (vsmul (h/2) k2)) (t + h/2) = Except.ok (k3, a3) →
      f (vadd y (vsmul h k3)) (t + h) = Except.error e →
      rk4Step f y t h = Except.error e) ∧
    (∀ n acc, rk4Step f y t h = Except.error e →
      runE f (n+1) y t h acc = (acc, some e)) := by
  refine ⟨?_, ?_, ?_, ?_, ?_⟩
  · intro h1; simp [rk4Step, h1]
  · intro k1 a1 h1 h2; simp [rk4Step, h1, h2]
  · intro k1 a1 k2 a2 h1 h2 h3; simp [rk4Step, h1, h2, h3]
  · intro k1 a1 k2 a2 k3 a3 h1 h2 h3 h4; simp [rk4Step, h1, h2, h3, h4]
  · intro n acc herr; simp only [runE, herr]

/-- Witness for C8: with an always-failing derivative function, the
step aborts with the error and a one-step run returns the untouched
initial trace together with the error. -/
theorem C8_abort_witness :
    rk4Step fErr (1, 2) 0 1 = Except.error "domain" ∧
    runE fErr 1 (1, 2) 0 1 [] = ([], some "domain") := by
  have hstep := (C8_abort fErr (1, 2) 0 1 "domain").1 rfl
  exact ⟨hstep, (C8_abort fErr (1, 2) 0 1 "domain").2.2.2.2 0 [] hstep⟩
